import Mathlib

/-!
Shallow embedding of `src/pkmodel/solution.py` (class `Solution`): the two
flux-engine right-hand-side functions, the evaluation-grid construction, and
the solver driver.  Real-valued quantities are modelled as rationals, Python
lists as `List ℚ`, and Python list indexing `state[i]` as `List.getD i 0`
(the claims keep every index in range).  The external collaborators
(`Model`, `Protocol` attribute access, `np.linspace`, `scipy.solve_ivp`) are
modelled at their interface boundary, following spec sections 3 and 6.
-/

/-- Model interface (spec section 6): `size` total compartments, central
volume `Vc`, clearance `CL`, peripheral transfer rates `Qps` and volumes
`Vps`. -/
structure Model where
  size : ℕ
  Vc : ℚ
  CL : ℚ
  Qps : List ℚ
  Vps : List ℚ

/-- Protocol interface (spec section 6): regimen flag, dose-rate function of
time, absorption constant `k_a` (used only when subcutaneous). -/
structure Protocol where
  subcutaneous : Bool
  dose_time_function : ℚ → ℚ
  k_a : ℚ

/-- `Solution.rhs_intravenous` from `solution.py`: builds `dq_dt = [0]`,
appends one flux entry per peripheral compartment `comp = 1 .. size-1`,
accumulating `flux_sum`, then overwrites entry 0 with
`dose(t) - cleared - flux_sum`. -/
def rhs_intravenous (m : Model) (p : Protocol) (t : ℚ) (y : List ℚ) : List ℚ :=
  let state := y
  let cleared := state.getD 0 0 / m.Vc * m.CL
  let res := (List.range' 1 (m.size - 1)).foldl
    (fun acc comp =>
      let Q_pi := m.Qps.getD (comp - 1) 0
      let V_pi := m.Vps.getD (comp - 1) 0
      let flux := Q_pi * (state.getD 0 0 / m.Vc - state.getD comp 0 / V_pi)
      (acc.1 ++ [flux], acc.2 + flux))
    ([(0 : ℚ)], (0 : ℚ))
  res.1.set 0 (p.dose_time_function t - cleared - res.2)

/-- `Solution.rhs_subcutaneous` from `solution.py`: state has a leading depot
pool; `dq_dt = [0, 0]`, entry 0 set to `dose(t) - k_a*state[0]`, one flux
entry appended per peripheral compartment (offset by the depot slot), then
entry 1 overwritten with `k_a*state[0] - cleared - flux_sum`. -/
def rhs_subcutaneous (m : Model) (p : Protocol) (t : ℚ) (y : List ℚ) : List ℚ :=
  let state := y
  let cleared := state.getD 1 0 / m.Vc * m.CL
  let dq0_dt := p.dose_time_function t - p.k_a * state.getD 0 0
  let init := ([(0 : ℚ), (0 : ℚ)].set 0 dq0_dt, (0 : ℚ))
  let res := (List.range' 1 (m.size - 1)).foldl
    (fun acc comp =>
      let Q_pi := m.Qps.getD (comp - 1) 0
      let V_pi := m.Vps.getD (comp - 1) 0
      let flux := Q_pi * (state.getD 1 0 / m.Vc - state.getD (comp + 1) 0 / V_pi)
      (acc.1 ++ [flux], acc.2 + flux))
    init
  res.1.set 1 (p.k_a * state.getD 0 0 - cleared - res.2)

/-- The append-and-accumulate loop body, in closed form: folding over any
index list appends the mapped fluxes and adds their sum. -/
theorem foldl_flux_spec (g : ℕ → ℚ) (l : List ℕ) (l0 : List ℚ) (s0 : ℚ) :
    l.foldl (fun acc comp => (acc.1 ++ [g comp], acc.2 + g comp)) (l0, s0)
      = (l0 ++ l.map g, s0 + (l.map g).sum) := by
  induction l generalizing l0 s0 with
  | nil => simp
  | cons a tl ih =>
    simp only [List.foldl_cons, List.map_cons, List.sum_cons, ih]
    simp [List.append_assoc, add_assoc]

/-- Closed form of the intravenous RHS: head entry plus the mapped flux
list. -/
theorem rhs_intravenous_eq (m : Model) (p : Protocol) (t : ℚ) (y : List ℚ) :
    rhs_intravenous m p t y =
      (p.dose_time_function t - y.getD 0 0 / m.Vc * m.CL
        - ((List.range' 1 (m.size - 1)).map (fun comp =>
            m.Qps.getD (comp - 1) 0 *
              (y.getD 0 0 / m.Vc - y.getD comp 0 / m.Vps.getD (comp - 1) 0))).sum)
      :: (List.range' 1 (m.size - 1)).map (fun comp =>
            m.Qps.getD (comp - 1) 0 *
              (y.getD 0 0 / m.Vc - y.getD comp 0 / m.Vps.getD (comp - 1) 0)) := by
  unfold rhs_intravenous
  simp only [foldl_flux_spec]
  simp

/-- Closed form of the subcutaneous RHS: depot entry, central entry, then the
mapped flux list. -/
theorem rhs_subcutaneous_eq (m : Model) (p : Protocol) (t : ℚ) (y : List ℚ) :
    rhs_subcutaneous m p t y =
      (p.dose_time_function t - p.k_a * y.getD 0 0)
      :: (p.k_a * y.getD 0 0 - y.getD 1 0 / m.Vc * m.CL
        - ((List.range' 1 (m.size - 1)).map (fun comp =>
            m.Qps.getD (comp - 1) 0 *
              (y.getD 1 0 / m.Vc - y.getD (comp + 1) 0 / m.Vps.getD (comp - 1) 0))).sum)
      :: (List.range' 1 (m.size - 1)).map (fun comp =>
            m.Qps.getD (comp - 1) 0 *
              (y.getD 1 0 / m.Vc - y.getD (comp + 1) 0 / m.Vps.getD (comp - 1) 0)) := by
  unfold rhs_subcutaneous
  simp only [foldl_flux_spec]
  simp

/-- `np.linspace 0 tmax nsteps` (external collaborator): `n` equally spaced
points from `a` to `b` inclusive, point `i` at `a + (b - a) * i / (n - 1)`. -/
def linspace (a b : ℚ) (n : ℕ) : List ℚ :=
  (List.range n).map (fun i : ℕ => a + (b - a) * (i : ℚ) / ((n : ℚ) - 1))

/-- Argument record of `scipy.integrate.solve_ivp` as the source invokes it:
derivative function, span endpoints, initial state, evaluation grid. -/
structure IvpArgs where
  f : ℚ → List ℚ → List ℚ
  t0 : ℚ
  tf : ℚ
  y0 : List ℚ
  t_eval : List ℚ

/-- Result record of `scipy.integrate.solve_ivp`: a success flag, the
reported times, and the state columns.  On failure scipy returns
`success = False` with a truncated `t`; it does not raise. -/
structure IvpResult where
  success : Bool
  t : List ℚ
  y : List (List ℚ)

/-- An integrator backend: `scipy.integrate.solve_ivp` is external to the
repository, so theorems quantify over it (or fix a concrete one). -/
def IvpBackend := IvpArgs → IvpResult

/-- The `Solution` object's stored attributes after `__init__` ran. -/
structure Solution where
  model : Model
  protocol : Protocol
  t_eval : List ℚ
  y0 : List ℚ
  sol : IvpResult

/-- Errors escaping the solve: the two members of the spec section 7
taxonomy (which the source never raises — no such classes exist in the
repository) plus the raw Python `IndexError` that the unvalidated code does
raise, e.g. at `self.t_eval[0]` when the grid is empty. -/
inductive PkError where
  | ConfigurationError
  | IntegrationFailure
  | IndexError
deriving DecidableEq

/-- `Solution.solver` from `solution.py`: select the RHS variant by
`protocol.subcutaneous`, build the zero initial state sized accordingly,
call the integrator over `[t_eval[0], t_eval[-1]]` with output requested at
`t_eval`, and store the result unchecked.  Evaluating
`t_span=[self.t_eval[0], self.t_eval[-1]]` raises `IndexError` exactly when
`t_eval` is empty (the guard below); on a nonempty list `headD`/`getLastD`
equal `t_eval[0]` and `t_eval[-1]`.  Returns the pair of attributes it
assigns (`y0`, `sol`). -/
def Solution.solver (ivp : IvpBackend) (m : Model) (p : Protocol)
    (t_eval : List ℚ) : Except PkError (List ℚ × IvpResult) :=
  let y0 := if p.subcutaneous then List.replicate (m.size + 1) (0 : ℚ)
            else List.replicate m.size (0 : ℚ)
  let step_func := if p.subcutaneous then rhs_subcutaneous m p
                   else rhs_intravenous m p
  if t_eval.isEmpty then Except.error PkError.IndexError
  else
    Except.ok (y0, ivp { f := fun t y => step_func t y,
                         t0 := t_eval.headD 0, tf := t_eval.getLastD 0,
                         y0 := y0, t_eval := t_eval })

/-- `Solution.__init__` from `solution.py`: store model and protocol, build
`t_eval = np.linspace(0, tmax, nsteps)` and run `solver`.  The body contains
no validation and no `raise` of its own; any error from `solver` (the
`IndexError` on an empty grid) propagates. -/
def Solution.init (ivp : IvpBackend) (model : Model) (protocol : Protocol)
    (tmax : ℚ) (nsteps : ℕ) : Except PkError Solution :=
  let t_eval := linspace 0 tmax nsteps
  match Solution.solver ivp model protocol t_eval with
  | Except.error e => Except.error e
  | Except.ok r =>
      Except.ok { model := model, protocol := protocol, t_eval := t_eval,
                  y0 := r.1, sol := r.2 }

/-- The trajectory `generate_plot` draws from: its first line re-runs
`self.solver()` on the stored attributes and plots that result (errors from
the re-solve propagate as in the source). -/
def Solution.generate_plot_sol (ivp : IvpBackend) (s : Solution) :
    Except PkError IvpResult :=
  (Solution.solver ivp s.model s.protocol s.t_eval).map Prod.snd

/-- A backend honouring the reporting contract of spec section 4.2: on
success the reported times are exactly the requested grid. -/
def reportsOnGrid (ivp : IvpBackend) : Prop :=
  ∀ args : IvpArgs, (ivp args).success = true → (ivp args).t = args.t_eval

/-- Concrete successful backend used in witnesses: echoes the grid back. -/
def echoIvp : IvpBackend :=
  fun args => { success := true, t := args.t_eval, y := [args.y0] }

/-- Concrete non-convergent backend used in counterexamples: gives up after
the initial time, reporting `success = false` with a truncated time list. -/
def failIvp : IvpBackend :=
  fun args => { success := false, t := [args.t0], y := [args.y0] }

/-- Entry `k` of the mapped flux list is the flux formula at compartment
`1 + k`. -/
theorem flux_list_getD (g : ℕ → ℚ) (n k : ℕ) (hk : k < n) :
    ((List.range' 1 n).map g).getD k 0 = g (1 + k) := by
  rw [List.getD_eq_getElem?_getD, List.getElem?_map, List.getElem?_range' 1 1 hk]
  simp

/-- Concrete two-compartment model used in witnesses (spec section 8
scenario): one peripheral compartment, unit parameters. -/
def Mw : Model := { size := 2, Vc := 1, CL := 1, Qps := [1], Vps := [1] }

/-- Concrete intravenous protocol with constant unit dose, for witnesses. -/
def Pw : Protocol :=
  { subcutaneous := false, dose_time_function := fun _ => 1, k_a := 1 }

/-- Concrete subcutaneous protocol with constant unit dose, for witnesses. -/
def Pws : Protocol :=
  { subcutaneous := true, dose_time_function := fun _ => 1, k_a := 1 }

/-- C1: for any time, model with positive `Vc`, nonnegative `CL`, peripheral
arrays of length `size - 1` and a nonnegative state of length `size`, the
intravenous RHS has length `size`, each peripheral entry `i` equals
`Qps[i-1] * (state[0]/Vc - state[i]/Vps[i-1])`, and entry 0 equals
`dose(t)` minus `state[0]/Vc*CL` minus the sum of the peripheral flux
entries of the returned vector. -/
theorem iv_rhs_correct (t : ℚ) (m : Model) (p : Protocol) (y : List ℚ)
    (hsize : 1 ≤ m.size) (hVc : 0 < m.Vc) (hCL : 0 ≤ m.CL)
    (hQ : m.Qps.length = m.size - 1) (hV : m.Vps.length = m.size - 1)
    (hy : y.length = m.size) (hpos : ∀ x ∈ y, 0 ≤ x) :
    (rhs_intravenous m p t y).length = m.size ∧
    (∀ i, 1 ≤ i → i < m.size →
      (rhs_intravenous m p t y).getD i 0 =
        m.Qps.getD (i - 1) 0 *
          (y.getD 0 0 / m.Vc - y.getD i 0 / m.Vps.getD (i - 1) 0)) ∧
    (rhs_intravenous m p t y).getD 0 0 =
      p.dose_time_function t - y.getD 0 0 / m.Vc * m.CL
        - ((List.range' 1 (m.size - 1)).map
            (fun i => (rhs_intravenous m p t y).getD i 0)).sum := by
  have entries : ∀ i, 1 ≤ i → i < m.size →
      (rhs_intravenous m p t y).getD i 0 =
        m.Qps.getD (i - 1) 0 *
          (y.getD 0 0 / m.Vc - y.getD i 0 / m.Vps.getD (i - 1) 0) := by
    intro i h1 h2
    obtain ⟨k, rfl⟩ : ∃ k, i = k + 1 := ⟨i - 1, by omega⟩
    rw [rhs_intravenous_eq, List.getD_cons_succ,
      flux_list_getD _ _ _ (by omega : k < m.size - 1)]
    have : 1 + k = k + 1 := by omega
    rw [this]
  refine ⟨?_, entries, ?_⟩
  · rw [rhs_intravenous_eq]
    simp only [List.length_cons, List.length_map, List.length_range']
    omega
  · have hmap : ((List.range' 1 (m.size - 1)).map
        (fun i => (rhs_intravenous m p t y).getD i 0))
        = (List.range' 1 (m.size - 1)).map (fun i =>
            m.Qps.getD (i - 1) 0 *
              (y.getD 0 0 / m.Vc - y.getD i 0 / m.Vps.getD (i - 1) 0)) := by
      apply List.map_congr_left
      intro i hi
      obtain ⟨j, hj, rfl⟩ := List.mem_range'.1 hi
      exact entries _ (by omega) (by omega)
    rw [hmap, rhs_intravenous_eq, List.getD_cons_zero]

/-- C1 witness: the scenario model of spec section 8 at time 0 with zero
state. -/
theorem iv_rhs_correct_witness :
    (rhs_intravenous Mw Pw 0 [0, 0]).length = Mw.size ∧
    (∀ i, 1 ≤ i → i < Mw.size →
      (rhs_intravenous Mw Pw 0 [0, 0]).getD i 0 =
        Mw.Qps.getD (i - 1) 0 *
          (([0, 0] : List ℚ).getD 0 0 / Mw.Vc -
            ([0, 0] : List ℚ).getD i 0 / Mw.Vps.getD (i - 1) 0)) ∧
    (rhs_intravenous Mw Pw 0 [0, 0]).getD 0 0 =
      Pw.dose_time_function 0 - ([0, 0] : List ℚ).getD 0 0 / Mw.Vc * Mw.CL
        - ((List.range' 1 (Mw.size - 1)).map
            (fun i => (rhs_intravenous Mw Pw 0 [0, 0]).getD i 0)).sum :=
  iv_rhs_correct 0 Mw Pw [0, 0] (by decide) (by decide) (by decide)
    (by decide) (by decide) (by decide) (by decide)

/-- C2: for any time, model as in C1, absorption constant `k_a > 0` and a
state of length `size + 1` with the depot first, the subcutaneous RHS has
length `size + 1`, entry 0 equals `dose(t) - k_a*state[0]`, each peripheral
entry `i+1` equals `Qps[i-1] * (state[1]/Vc - state[i+1]/Vps[i-1])`, and
entry 1 equals `k_a*state[0]` minus `state[1]/Vc*CL` minus the sum of the
peripheral flux entries of the returned vector. -/
theorem sc_rhs_correct (t : ℚ) (m : Model) (p : Protocol) (y : List ℚ)
    (hsize : 1 ≤ m.size) (hka : 0 < p.k_a) (hVc : 0 < m.Vc) (hCL : 0 ≤ m.CL)
    (hQ : m.Qps.length = m.size - 1) (hV : m.Vps.length = m.size - 1)
    (hy : y.length = m.size + 1) :
    (rhs_subcutaneous m p t y).length = m.size + 1 ∧
    (rhs_subcutaneous m p t y).getD 0 0 =
      p.dose_time_function t - p.k_a * y.getD 0 0 ∧
    (∀ i, 1 ≤ i → i < m.size →
      (rhs_subcutaneous m p t y).getD (i + 1) 0 =
        m.Qps.getD (i - 1) 0 *
          (y.getD 1 0 / m.Vc - y.getD (i + 1) 0 / m.Vps.getD (i - 1) 0)) ∧
    (rhs_subcutaneous m p t y).getD 1 0 =
      p.k_a * y.getD 0 0 - y.getD 1 0 / m.Vc * m.CL
        - ((List.range' 1 (m.size - 1)).map
            (fun i => (rhs_subcutaneous m p t y).getD (i + 1) 0)).sum := by
  have entries : ∀ i, 1 ≤ i → i < m.size →
      (rhs_subcutaneous m p t y).getD (i + 1) 0 =
        m.Qps.getD (i - 1) 0 *
          (y.getD 1 0 / m.Vc - y.getD (i + 1) 0 / m.Vps.getD (i - 1) 0) := by
    intro i h1 h2
    obtain ⟨k, rfl⟩ : ∃ k, i = k + 1 := ⟨i - 1, by omega⟩
    rw [rhs_subcutaneous_eq, List.getD_cons_succ, List.getD_cons_succ,
      flux_list_getD _ _ _ (by omega : k < m.size - 1)]
    have : 1 + k = k + 1 := by omega
    rw [this]
  refine ⟨?_, ?_, entries, ?_⟩
  · rw [rhs_subcutaneous_eq]
    simp only [List.length_cons, List.length_map, List.length_range']
    omega
  · rw [rhs_subcutaneous_eq, List.getD_cons_zero]
  · have hmap : ((List.range' 1 (m.size - 1)).map
        (fun i => (rhs_subcutaneous m p t y).getD (i + 1) 0))
        = (List.range' 1 (m.size - 1)).map (fun i =>
            m.Qps.getD (i - 1) 0 *
              (y.getD 1 0 / m.Vc - y.getD (i + 1) 0 / m.Vps.getD (i - 1) 0)) := by
      apply List.map_congr_left
      intro i hi
      obtain ⟨j, hj, rfl⟩ := List.mem_range'.1 hi
      exact entries _ (by omega) (by omega)
    rw [hmap, rhs_subcutaneous_eq, List.getD_cons_succ, List.getD_cons_zero]

/-- C2 witness: the two-compartment model with the subcutaneous protocol at
time 0 and zero three-pool state. -/
theorem sc_rhs_correct_witness :
    (rhs_subcutaneous Mw Pws 0 [0, 0, 0]).length = Mw.size + 1 ∧
    (rhs_subcutaneous Mw Pws 0 [0, 0, 0]).getD 0 0 =
      Pws.dose_time_function 0 - Pws.k_a * ([0, 0, 0] : List ℚ).getD 0 0 ∧
    (∀ i, 1 ≤ i → i < Mw.size →
      (rhs_subcutaneous Mw Pws 0 [0, 0, 0]).getD (i + 1) 0 =
        Mw.Qps.getD (i - 1) 0 *
          (([0, 0, 0] : List ℚ).getD 1 0 / Mw.Vc -
            ([0, 0, 0] : List ℚ).getD (i + 1) 0 / Mw.Vps.getD (i - 1) 0)) ∧
    (rhs_subcutaneous Mw Pws 0 [0, 0, 0]).getD 1 0 =
      Pws.k_a * ([0, 0, 0] : List ℚ).getD 0 0
        - ([0, 0, 0] : List ℚ).getD 1 0 / Mw.Vc * Mw.CL
        - ((List.range' 1 (Mw.size - 1)).map
            (fun i => (rhs_subcutaneous Mw Pws 0 [0, 0, 0]).getD (i + 1) 0)).sum :=
  sc_rhs_correct 0 Mw Pws [0, 0, 0] (by decide) (by decide) (by decide)
    (by decide) (by decide) (by decide) (by decide)

/-- C6: with no peripheral compartments (`size = 1`) the flux loop is empty
and both RHS variants return without touching `Qps` or `Vps`: the result is
independent of those arrays, the intravenous vector is the single entry
`dose(t) - state[0]/Vc*CL`, and the subcutaneous vector is the pair
`[dose(t) - k_a*state[0], k_a*state[0] - state[1]/Vc*CL]`. -/
theorem size_one_rhs (m : Model) (p : Protocol) (t : ℚ) (y : List ℚ)
    (h1 : m.size = 1) :
    (∀ Qps2 Vps2 : List ℚ,
      rhs_intravenous { m with Qps := Qps2, Vps := Vps2 } p t y
        = rhs_intravenous m p t y ∧
      rhs_subcutaneous { m with Qps := Qps2, Vps := Vps2 } p t y
        = rhs_subcutaneous m p t y) ∧
    rhs_intravenous m p t y = [p.dose_time_function t - y.getD 0 0 / m.Vc * m.CL] ∧
    rhs_subcutaneous m p t y =
      [p.dose_time_function t - p.k_a * y.getD 0 0,
       p.k_a * y.getD 0 0 - y.getD 1 0 / m.Vc * m.CL] := by
  refine ⟨fun Qps2 Vps2 => ⟨?_, ?_⟩, ?_, ?_⟩ <;>
    simp [rhs_intravenous_eq, rhs_subcutaneous_eq, h1]

/-- C6 witness: a one-compartment model. -/
theorem size_one_rhs_witness :
    (∀ Qps2 Vps2 : List ℚ,
      rhs_intravenous { size := 1, Vc := 1, CL := 1, Qps := Qps2, Vps := Vps2 }
          Pw 0 [2]
        = rhs_intravenous { size := 1, Vc := 1, CL := 1, Qps := [], Vps := [] }
          Pw 0 [2] ∧
      rhs_subcutaneous { size := 1, Vc := 1, CL := 1, Qps := Qps2, Vps := Vps2 }
          Pws 0 [2, 3]
        = rhs_subcutaneous { size := 1, Vc := 1, CL := 1, Qps := [], Vps := [] }
          Pws 0 [2, 3]) ∧
    rhs_intravenous { size := 1, Vc := 1, CL := 1, Qps := [], Vps := [] } Pw 0 [2]
      = [Pw.dose_time_function 0 - ([2] : List ℚ).getD 0 0 / 1 * 1] ∧
    rhs_subcutaneous { size := 1, Vc := 1, CL := 1, Qps := [], Vps := [] }
        Pws 0 [2, 3]
      = [Pws.dose_time_function 0 - Pws.k_a * ([2, 3] : List ℚ).getD 0 0,
         Pws.k_a * ([2, 3] : List ℚ).getD 0 0
           - ([2, 3] : List ℚ).getD 1 0 / 1 * 1] := by
  have h := size_one_rhs { size := 1, Vc := 1, CL := 1, Qps := [], Vps := [] }
    Pw 0 [2] (by decide)
  have hs := size_one_rhs { size := 1, Vc := 1, CL := 1, Qps := [], Vps := [] }
    Pws 0 [2, 3] (by decide)
  exact ⟨fun Qps2 Vps2 => ⟨(h.1 Qps2 Vps2).1, (hs.1 Qps2 Vps2).2⟩,
    h.2.1, hs.2.2⟩

/-- C7: with zero clearance the intravenous derivative entries sum exactly
to the dose rate — flux only redistributes mass. -/
theorem iv_mass_conservation (m : Model) (p : Protocol) (t : ℚ) (y : List ℚ)
    (hCL : m.CL = 0) :
    (rhs_intravenous m p t y).sum = p.dose_time_function t := by
  rw [rhs_intravenous_eq]
  simp [hCL]

/-- C7 witness: zero-clearance copy of the two-compartment scenario. -/
theorem iv_mass_conservation_witness :
    (rhs_intravenous { Mw with CL := 0 } Pw 0 [1, 2]).sum
      = Pw.dose_time_function 0 :=
  iv_mass_conservation { Mw with CL := 0 } Pw 0 [1, 2] (by decide)

/-- C8: with no dosing at time `t`, positive `k_a` and a nonnegative depot
entry, the depot derivative of the subcutaneous RHS is nonpositive. -/
theorem sc_depot_nonincreasing (m : Model) (p : Protocol) (t : ℚ) (y : List ℚ)
    (hdose : p.dose_time_function t = 0) (hka : 0 < p.k_a)
    (h0 : 0 ≤ y.getD 0 0) :
    (rhs_subcutaneous m p t y).getD 0 0 ≤ 0 := by
  rw [rhs_subcutaneous_eq, List.getD_cons_zero, hdose]
  simp only [zero_sub, neg_nonpos]
  exact mul_nonneg hka.le h0

/-- C8 witness: zero-dose subcutaneous protocol with a loaded depot. -/
theorem sc_depot_nonincreasing_witness :
    ({ Pws with dose_time_function := fun _ => 0
       : Protocol }).dose_time_function 1 = 0 ∧
    (rhs_subcutaneous Mw { Pws with dose_time_function := fun _ => 0 } 1
      [5, 1, 1]).getD 0 0 ≤ 0 :=
  ⟨rfl, sc_depot_nonincreasing Mw
    { Pws with dose_time_function := fun _ => 0 } 1 [5, 1, 1]
    rfl (by decide) (by decide)⟩

/-- C9: for every clearance value and any state, the intravenous derivative
entries sum to `dose(t) - state[0]/Vc*CL` and the subcutaneous entries sum
to `dose(t) - state[1]/Vc*CL`: the `k_a` terms cancel between depot and
central, so only dosing adds mass and only clearance removes it. -/
theorem rhs_mass_balance (m : Model) (p : Protocol) (t : ℚ) (y : List ℚ) :
    (rhs_intravenous m p t y).sum =
      p.dose_time_function t - y.getD 0 0 / m.Vc * m.CL ∧
    (rhs_subcutaneous m p t y).sum =
      p.dose_time_function t - y.getD 1 0 / m.Vc * m.CL := by
  rw [rhs_intravenous_eq, rhs_subcutaneous_eq]
  constructor <;> simp

/-- A requested grid with at least one point is nonempty. -/
theorem linspace_isEmpty_eq_false (a b : ℚ) (n : ℕ) (hn : 1 ≤ n) :
    (linspace a b n).isEmpty = false := by
  cases h : linspace a b n with
  | nil =>
    exfalso
    have hlen := congrArg List.length h
    simp [linspace] at hlen
    omega
  | cons x xs => rfl

/-- On a nonempty grid `solver` succeeds, calling the integrator on exactly
the arguments the source builds. -/
theorem solver_ok_of_nonempty (ivp : IvpBackend) (m : Model) (p : Protocol)
    (t_eval : List ℚ) (h : t_eval.isEmpty = false) :
    Solution.solver ivp m p t_eval = Except.ok
      (if p.subcutaneous then List.replicate (m.size + 1) (0 : ℚ)
       else List.replicate m.size (0 : ℚ),
       ivp { f := fun t y => (if p.subcutaneous then rhs_subcutaneous m p
                              else rhs_intravenous m p) t y,
             t0 := t_eval.headD 0, tf := t_eval.getLastD 0,
             y0 := if p.subcutaneous then List.replicate (m.size + 1) (0 : ℚ)
                   else List.replicate m.size (0 : ℚ),
             t_eval := t_eval }) := by
  unfold Solution.solver
  simp [h]

/-- A successful construction decomposes: `solver` returned `ok` and the
stored attributes are the model, protocol, grid, and `solver`'s pair. -/
theorem init_ok_elim (ivp : IvpBackend) (m : Model) (p : Protocol)
    (tmax : ℚ) (nsteps : ℕ) (s : Solution)
    (h : Solution.init ivp m p tmax nsteps = Except.ok s) :
    ∃ r, Solution.solver ivp m p (linspace 0 tmax nsteps) = Except.ok r ∧
      s = Solution.mk m p (linspace 0 tmax nsteps) r.1 r.2 := by
  simp only [Solution.init] at h
  cases hsv : Solution.solver ivp m p (linspace 0 tmax nsteps) with
  | error e =>
    rw [hsv] at h
    exact absurd h (by simp)
  | ok r =>
    rw [hsv] at h
    exact ⟨r, rfl, (Except.ok.inj h).symm⟩

/-- The configuration of the spec section 8 invalid-config scenario:
`Vc = 0`, otherwise a plain one-compartment model. -/
def badVcModel : Model := { size := 1, Vc := 0, CL := 1, Qps := [], Vps := [] }

/-- C3 counterexample: constructing a `Solution` with `Vc = 0` does not
raise `ConfigurationError` — the constructor returns normally and the
parameters reach the integrator unvalidated. -/
theorem init_no_validation_cex :
    badVcModel.Vc = 0 ∧
    (Solution.init echoIvp badVcModel Pw 1 10).isOk = true :=
  ⟨rfl, rfl⟩

/-- C3 amended: the constructor contains no validation and never raises
`ConfigurationError`, for any parameter set; the errors it can actually
raise are raw Python errors from using the unvalidated parameters — with
`nsteps = 0` it raises `IndexError` at `self.t_eval[0]` instead of the
claimed `ConfigurationError`. -/
theorem init_never_config_error (ivp : IvpBackend) (m : Model) (p : Protocol)
    (tmax : ℚ) (nsteps : ℕ) :
    Solution.init ivp m p tmax nsteps ≠
      Except.error PkError.ConfigurationError ∧
    (nsteps = 0 →
      Solution.init ivp m p tmax nsteps = Except.error PkError.IndexError) := by
  constructor
  · simp only [Solution.init, Solution.solver]
    cases h : (linspace 0 tmax nsteps).isEmpty <;> simp [h]
  · intro h0
    subst h0
    simp only [Solution.init, Solution.solver]
    rfl

/-- C3 amended witness: with `nsteps = 0` the constructor surfaces the raw
`IndexError`, not `ConfigurationError`. -/
theorem init_never_config_error_witness :
    Solution.init echoIvp Mw Pw 1 0 = Except.error PkError.IndexError :=
  (init_never_config_error echoIvp Mw Pw 1 0).2 rfl

/-- C4 counterexample: with a non-convergent integrator backend the solve
returns normally, carrying `success = false` and a time list truncated to a
single point instead of the 3 requested — no `IntegrationFailure` is
raised. -/
theorem solver_no_failure_cex :
    ((Solution.init failIvp Mw Pw 1 3).toOption.map
      (fun s => (s.sol.success, s.sol.t.length))) = some (false, 1) ∧
    (Solution.init failIvp Mw Pw 1 3).isOk = true :=
  ⟨rfl, rfl⟩

/-- C4 amended: the solve stores and returns the integrator's result object
unchanged — whatever `solve_ivp` produced, including failed or truncated
results, becomes `sol` with no success check and no raised
`IntegrationFailure` (the only error path, the empty-grid `IndexError`,
occurs before the integrator is reached and passes through untouched). -/
theorem integrator_result_passthrough (ivp : IvpBackend) (m : Model)
    (p : Protocol) (tmax : ℚ) (nsteps : ℕ) :
    (Solution.init ivp m p tmax nsteps).toOption.map Solution.sol
      = (Solution.solver ivp m p (linspace 0 tmax nsteps)).toOption.map
          Prod.snd := by
  simp only [Solution.init]
  cases Solution.solver ivp m p (linspace 0 tmax nsteps) <;> rfl

/-- C5: for `tmax > 0` and `nsteps ≥ 2` the requested grid is `nsteps`
equally spaced points from 0 to `tmax` inclusive, and — for a backend that
reports on the requested grid, when integration succeeds — the stored
trajectory times equal that grid. -/
theorem grid_and_trajectory_times (tmax : ℚ) (nsteps : ℕ) (ivp : IvpBackend)
    (m : Model) (p : Protocol) (s : Solution)
    (htmax : 0 < tmax) (hn : 2 ≤ nsteps)
    (hivp : reportsOnGrid ivp)
    (hinit : Solution.init ivp m p tmax nsteps = Except.ok s)
    (hsucc : s.sol.success = true) :
    s.t_eval = linspace 0 tmax nsteps ∧
    (linspace 0 tmax nsteps).length = nsteps ∧
    (linspace 0 tmax nsteps).getD 0 0 = 0 ∧
    (linspace 0 tmax nsteps).getD (nsteps - 1) 0 = tmax ∧
    (∀ i, i + 1 < nsteps →
      (linspace 0 tmax nsteps).getD (i + 1) 0
          - (linspace 0 tmax nsteps).getD i 0
        = tmax / ((nsteps : ℚ) - 1)) ∧
    s.sol.t = linspace 0 tmax nsteps := by
  have hden : ((nsteps : ℚ) - 1) ≠ 0 := by
    have h2 : (2 : ℚ) ≤ (nsteps : ℚ) := by exact_mod_cast hn
    linarith
  have hgetD : ∀ i, i < nsteps →
      (linspace 0 tmax nsteps).getD i 0 = tmax * i / ((nsteps : ℚ) - 1) := by
    intro i hi
    unfold linspace
    rw [List.getD_eq_getElem?_getD, List.getElem?_map, List.getElem?_range hi]
    simp
  obtain ⟨r, hsv, rfl⟩ := init_ok_elim ivp m p tmax nsteps s hinit
  have hr := Except.ok.inj
    ((solver_ok_of_nonempty ivp m p (linspace 0 tmax nsteps)
      (linspace_isEmpty_eq_false 0 tmax nsteps (by omega))).symm.trans hsv)
  subst hr
  refine ⟨rfl, ?_, ?_, ?_, ?_, hivp _ hsucc⟩
  · unfold linspace
    simp
  · rw [hgetD 0 (by omega)]
    simp
  · rw [hgetD (nsteps - 1) (by omega)]
    have hcast : ((nsteps - 1 : ℕ) : ℚ) = (nsteps : ℚ) - 1 := by
      have := Nat.cast_sub (le_of_lt (by omega : 1 < nsteps)) (R := ℚ)
      simpa using this
    rw [hcast, mul_div_assoc, div_self hden, mul_one]
  · intro i hi
    rw [hgetD (i + 1) (by omega), hgetD i (by omega)]
    push_cast
    field_simp
    ring

/-- The `Solution` object built by a construction-time solve with the echo
backend on the boundary scenario `tmax = 1`, `nsteps = 2`. -/
def solW : Solution := Solution.mk Mw Pw (linspace 0 1 2)
  (List.replicate Mw.size 0)
  (echoIvp { f := fun t y => rhs_intravenous Mw Pw t y,
             t0 := (linspace 0 1 2).headD 0,
             tf := (linspace 0 1 2).getLastD 0,
             y0 := List.replicate Mw.size 0,
             t_eval := linspace 0 1 2 })

/-- C5 witness: the boundary scenario `nsteps = 2` gives exactly the two
grid points 0 and `tmax`, and the trajectory times equal the grid. -/
theorem grid_and_trajectory_times_witness :
    solW.t_eval = linspace 0 1 2 ∧
    (linspace 0 1 2).length = 2 ∧
    (linspace 0 1 2).getD 0 0 = 0 ∧
    (linspace 0 1 2).getD (2 - 1) 0 = 1 ∧
    (∀ i, i + 1 < 2 →
      (linspace 0 1 2).getD (i + 1) 0 - (linspace 0 1 2).getD i 0
        = 1 / ((2 : ℚ) - 1)) ∧
    solW.sol.t = linspace 0 1 2 :=
  grid_and_trajectory_times 1 2 echoIvp Mw Pw solW (by norm_num) (by norm_num)
    (fun _ _ => rfl) rfl rfl

/-- C10: the solve is deterministic — two constructions from identical
model, protocol, `tmax` and `nsteps` (against the same integrator backend)
produce equal `Solution` objects, and the re-solve performed inside
`generate_plot` reproduces the trajectory stored at construction time. -/
theorem solve_deterministic (ivp : IvpBackend) (m : Model) (p : Protocol)
    (tmax : ℚ) (nsteps : ℕ) (s1 s2 : Solution)
    (h1 : Solution.init ivp m p tmax nsteps = Except.ok s1)
    (h2 : Solution.init ivp m p tmax nsteps = Except.ok s2) :
    s1 = s2 ∧ Solution.generate_plot_sol ivp s1 = Except.ok s1.sol := by
  obtain ⟨r, hsv, rfl⟩ := init_ok_elim ivp m p tmax nsteps s1 h1
  obtain ⟨r2, hsv2, rfl⟩ := init_ok_elim ivp m p tmax nsteps s2 h2
  have hrr : r = r2 := Except.ok.inj (hsv.symm.trans hsv2)
  subst hrr
  refine ⟨rfl, ?_⟩
  show (Solution.solver ivp m p (linspace 0 tmax nsteps)).map Prod.snd
      = Except.ok r.2
  rw [hsv]
  rfl

/-- C10 witness: two solves of the boundary scenario agree, and the plot
re-solve equals the stored trajectory. -/
theorem solve_deterministic_witness :
    solW = solW ∧
    Solution.generate_plot_sol echoIvp solW = Except.ok solW.sol :=
  solve_deterministic echoIvp Mw Pw 1 2 solW solW rfl rfl
